import Mathlib

/-!
Verification of the chat-app repository's client-side message logic.

The embedding below follows the TypeScript/JavaScript sources:
  - src/components/ChatPanel.tsx : data model, local-storage cache helpers,
    the message reconciler (upsertRoomMessage), the send pipeline
    (sendMessage) and the realtime subscription;
  - the Next.js API route (POST handler) that republishes messages on the
    hosted pub/sub service;
  - public/service-worker.js : the push-notification handler.

JavaScript values that are `undefined` are modelled as `none`; browser
builtins that are external to the repository (JSON.parse, Date string
parsing) are passed in as explicit function parameters whose `none`
result stands for a thrown SyntaxError respectively an invalid date (NaN).
-/

namespace Chat

/-- Fixed capacity of a room's message list (ChatPanel.tsx line 42). -/
def MESSAGE_LIMIT : Nat := 100

/-- Fuzzy-duplicate time window in milliseconds (ChatPanel.tsx line 43). -/
def DUPLICATE_WINDOW_MS : Nat := 5000

/-- A loosely typed timestamp: the source declares
`timestamp?: string | number | null`. `none` at the use sites models both
`undefined` and `null`. -/
inductive TSVal where
  | num (n : Int)
  | str (s : String)
deriving DecidableEq

/-- The message record (ChatPanel.tsx lines 31-39). Optional fields are
`Option`; the transient unconfirmed flag is the source's `local` field
(written `«local»` because `local` is a reserved word in Lean). -/
structure ChatMessage where
  id : Option String := none
  clientId : Option String := none
  userId : Option String := none
  username : String
  message : String
  timestamp : Option TSVal := none
  «local» : Option Bool := none
deriving DecidableEq

/-- JavaScript truthiness of an optional string: `undefined` and the empty
string are falsy. -/
def strTruthy : Option String → Bool
  | some s => s ≠ ""
  | none => false

/-- JavaScript truthiness of an optional timestamp value: `undefined`,
`null`, the number 0 and the empty string are falsy. -/
def tsTruthy : Option TSVal → Bool
  | some (TSVal.num n) => n ≠ 0
  | some (TSVal.str s) => s ≠ ""
  | none => false

/-- Model of `ts ? new Date(ts).getTime() : NaN` as used in the fuzzy
duplicate check (ChatPanel.tsx lines 150-151). `parseDate` is the browser's
Date string parser (external to the repository); `none` models NaN.
`new Date(n).getTime()` for a number `n` is `n` itself. -/
def tsGetTime (parseDate : String → Option Int) : Option TSVal → Option Int
  | some (TSVal.num n) => if n ≠ 0 then some n else none
  | some (TSVal.str s) => if s ≠ "" then parseDate s else none
  | none => none

/-- The fuzzy-duplicate predicate (ChatPanel.tsx lines 148-153): identical
username, identical body, and both timestamps parse to times strictly less
than DUPLICATE_WINDOW_MS apart. -/
def fuzzyDup (parseDate : String → Option Int) (m msg : ChatMessage) : Bool :=
  m.username = msg.username && m.message = msg.message &&
    match tsGetTime parseDate m.timestamp, tsGetTime parseDate msg.timestamp with
    | some t1, some t2 => (t1 - t2).natAbs < DUPLICATE_WINDOW_MS
    | _, _ => false

/-- Model of `Array.prototype.findIndex`: index of the first element
satisfying `p`, with `none` standing for -1. -/
def findIndex (p : ChatMessage → Bool) : List ChatMessage → Option Nat
  | [] => none
  | m :: rest => if p m then some 0 else (findIndex p rest).map (· + 1)

/-- Model of `xs.slice(-n)` for `n > 0`: the last `min n xs.length`
elements of `xs`. -/
def sliceLast (n : Nat) (l : List α) : List α := l.drop (l.length - n)

/-- The message reconciler (ChatPanel.tsx lines 131-159), acting on one
room's list. Priority order as in the source: clientId match replaces in
place and clears the unconfirmed flag; then a server-id match discards;
then a fuzzy duplicate discards; otherwise the message is appended.
Mutating branches trim with `.slice(-MESSAGE_LIMIT)`; discarding branches
return the previous list unchanged. In the in-place branch the source
merges with `{ ...roomMsgs[idx], ...msg, local: false }`; every message
object that can reach this branch is built by an object literal carrying
all fields (the subscription handler's `incoming` and sendMessage's
`normalized`), so the spread overwrites every field of the old entry and
the merged entry is `msg` with the flag cleared. -/
def upsertRoomMessage (parseDate : String → Option Int)
    (roomMsgs : List ChatMessage) (msg : ChatMessage) : List ChatMessage :=
  match if strTruthy msg.clientId then
          findIndex (fun m => m.clientId = msg.clientId) roomMsgs
        else none with
  | some idx =>
      sliceLast MESSAGE_LIMIT (roomMsgs.set idx { msg with «local» := some false })
  | none =>
      if strTruthy msg.id && roomMsgs.any (fun m => m.id = msg.id) then
        roomMsgs
      else if roomMsgs.any (fun m => fuzzyDup parseDate m msg) then
        roomMsgs
      else
        sliceLast MESSAGE_LIMIT (roomMsgs ++ [msg])

/-- The optimistic insert of the send pipeline (ChatPanel.tsx lines
209-212): append and trim. -/
def optimisticInsert (roomMsgs : List ChatMessage) (msg : ChatMessage) : List ChatMessage :=
  sliceLast MESSAGE_LIMIT (roomMsgs ++ [msg])

/-- A minimal JSON value model, used for the storage blob parsed by
loadRoomCache and for the API route's request/response bodies. -/
inductive Json where
  | null
  | bool (b : Bool)
  | num (n : Int)
  | str (s : String)
  | arr (xs : List Json)
  | obj (fields : List (String × Json))

/-- Keys of a JSON object (empty for non-objects). -/
def Json.keys : Json → List String
  | Json.obj fields => fields.map Prod.fst
  | _ => []

/-- The per-room cache loader (ChatPanel.tsx lines 81-84):
`const stored = localStorage.getItem(storageKey(room));
 return stored ? JSON.parse(stored) : [];`
`stored` is the raw storage entry (`none` when absent, i.e. getItem
returned null); `parse` is the browser's JSON.parse, whose `none` result
stands for a thrown SyntaxError. There is no try/catch in the source, so
the parse error propagates: the `Except.error` branch models the throw
reaching the caller. A falsy `stored` (absent entry or empty string)
yields the empty list. -/
def loadRoomCache (parse : String → Option Json) (stored : Option String) :
    Except String Json :=
  match stored with
  | none => Except.ok (Json.arr [])
  | some s =>
      if s = "" then Except.ok (Json.arr [])
      else
        match parse s with
        | some v => Except.ok v
        | none => Except.error "SyntaxError: Unexpected token in JSON"

/-- The body the send pipeline posts to the API route
(`JSON.stringify({ ...optimistic, room: currentRoom })`,
ChatPanel.tsx line 218). -/
structure PostBody where
  clientId : Option String := none
  userId : Option String := none
  username : String
  message : String
  timestamp : Option TSVal := none
  «local» : Option Bool := none
  room : String
deriving DecidableEq

/-- One call to `pusher.trigger(channel, event, payload)`. -/
structure TriggerCall where
  channel : String
  event : String
  payloadUsername : String
  payloadMessage : String
deriving DecidableEq

/-- The API route's POST handler (app/api/message/route.ts in the sources):
`const { username, message } = await req.json();
 await pusher.trigger("chat-channel", "new-message", { username, message });
 return NextResponse.json({ success: true });`
The result pairs the single trigger call it issues with the JSON response
body. The handler destructures only `username` and `message` from the
request body; every other posted field, including `room`, is ignored, and
the channel name is the fixed string "chat-channel". -/
def POST (body : PostBody) : TriggerCall × Json :=
  ({ channel := "chat-channel", event := "new-message",
     payloadUsername := body.username, payloadMessage := body.message },
   Json.obj [("success", Json.bool true)])

/-- The channel the realtime subscriber opens for a room
(ChatPanel.tsx line 167), a template literal concatenating the fixed
prefix "chat-" with the current room name. -/
def subscribeChannel (room : String) : String := "chat-" ++ room

/-- Field lookup in a JSON object, `none` for a missing key or a
non-object (models `serverMsg?.k` being undefined). -/
def Json.get? : Json → String → Option Json
  | Json.obj fields, k => (fields.find? (fun f => f.fst = k)).map Prod.snd
  | _, _ => none

/-- String-typed field of a JSON object, per the `ChatMessage` type
annotation on the normalized server message. -/
def Json.getStr? (j : Json) (k : String) : Option String :=
  match j.get? k with
  | some (Json.str s) => some s
  | _ => none

/-- Timestamp-typed field of a JSON object. -/
def Json.getTs? (j : Json) (k : String) : Option TSVal :=
  match j.get? k with
  | some (Json.str s) => some (TSVal.str s)
  | some (Json.num n) => some (TSVal.num n)
  | _ => none

/-- JavaScript whitespace test for the characters relevant to
String.prototype.trim (space, tab, newline, carriage return). -/
def isWS (c : Char) : Bool := c = ' ' || c = '\t' || c = '\n' || c = '\r'

/-- Model of JavaScript String.prototype.trim: strip whitespace from both
ends (written over the character list so it evaluates inside proofs). -/
def jsTrim (s : String) : String :=
  String.mk (((s.data.dropWhile isWS).reverse.dropWhile isWS).reverse)

/-- Outcome of the `fetch` call in sendMessage: the promise rejects
(network error, caught and logged), or a response arrives with a status
flag `ok` and a JSON body. -/
inductive FetchOutcome where
  | netError
  | httpResponse (ok : Bool) (body : Json)

/-- The normalized server message built from the response body
(ChatPanel.tsx lines 223-231): each field falls back with `??` to the
locally known value; `id` has no fallback. -/
def normalizeServerMsg (body : Json) (clientId userId username message : String)
    (nowIso : TSVal) : ChatMessage :=
  { id := body.getStr? "id",
    clientId := some ((body.getStr? "clientId").getD clientId),
    userId := some ((body.getStr? "userId").getD userId),
    username := (body.getStr? "username").getD username,
    message := (body.getStr? "message").getD message,
    timestamp := some ((body.getTs? "timestamp").getD nowIso),
    «local» := some false }

/-- The send pipeline (ChatPanel.tsx lines 195-250) as a function of the
room list before the send, the raw input, the freshly generated client id,
the ambient user identity, the clock reading and the fetch outcome.
Whitespace-only input is rejected with no side effect. Otherwise the
optimistic entry is inserted (append + trim), and then:
  - on a rejected fetch the catch block only logs — no further mutation;
  - on a non-ok response nothing happens — no further mutation;
  - on an ok response the normalized message replaces the entry whose
    clientId matches (object spread with all keys present, so full
    replacement), or is appended when no entry matches, trimming again. -/
def sendMessage (prev : List ChatMessage) (input : String)
    (clientId userId username : String) (nowIso : TSVal)
    (outcome : FetchOutcome) : List ChatMessage :=
  if jsTrim input = "" then prev
  else
    let optimistic : ChatMessage :=
      { clientId := some clientId, userId := some userId, username := username,
        message := input, timestamp := some nowIso, «local» := some true }
    let afterOptimistic := optimisticInsert prev optimistic
    match outcome with
    | FetchOutcome.netError => afterOptimistic
    | FetchOutcome.httpResponse ok body =>
        if ok then
          let normalized := normalizeServerMsg body clientId userId username input nowIso
          match findIndex (fun m => m.clientId = some clientId) afterOptimistic with
          | some idx => sliceLast MESSAGE_LIMIT (afterOptimistic.set idx normalized)
          | none => sliceLast MESSAGE_LIMIT (afterOptimistic ++ [normalized])
        else afterOptimistic

/-- The optimistic message constructed by sendMessage (lines 199-206),
exposed for stating properties about it. -/
def optimisticMsg (input : String) (clientId userId username : String)
    (nowIso : TSVal) : ChatMessage :=
  { clientId := some clientId, userId := some userId, username := username,
    message := input, timestamp := some nowIso, «local» := some true }

/-- The optional `notification` object of a push payload
(service-worker.js lines 11-14). -/
structure PushNotifFields where
  title : Option String := none
  body : Option String := none
  icon : Option String := none
  url : Option String := none
deriving DecidableEq

/-- A parsed push payload: an object with an optional `notification`
field. -/
structure PushPayload where
  notification : Option PushNotifFields := none
deriving DecidableEq

/-- The notification actually shown by
`self.registration.showNotification(title, { body, icon, data: { url } })`. -/
structure ShownNotification where
  title : String
  body : String
  icon : String
  url : String
deriving DecidableEq

/-- JavaScript `v || d` for an optional string `v`: the default is taken
when the value is absent or falsy (empty string). -/
def orDefault (v : Option String) (d : String) : String :=
  match v with
  | some s => if s = "" then d else s
  | none => d

/-- The service worker's push handler (service-worker.js lines 3-23).
`parsed` is the result of `event.data?.json()`: `none` models a thrown
parse error, caught by the try block so that `payload` stays the empty
object. Each display field falls back with `||` to its fixed default, and
`showNotification` is always reached — the handler returns a notification
in every case. -/
def pushHandler (parsed : Option PushPayload) : ShownNotification :=
  let payload := parsed.getD { notification := none }
  { title := orDefault (payload.notification.bind (·.title)) "New Notification",
    body := orDefault (payload.notification.bind (·.body)) "",
    icon := orDefault (payload.notification.bind (·.icon)) "/icon.png",
    url := orDefault (payload.notification.bind (·.url)) "/" }

/-! ### Helper lemmas about sliceLast -/

theorem sliceLast_of_le {l : List α} {n : Nat} (h : l.length ≤ n) :
    sliceLast n l = l := by
  simp [sliceLast, Nat.sub_eq_zero_of_le h]

theorem length_sliceLast (n : Nat) (l : List α) :
    (sliceLast n l).length = l.length - (l.length - n) := by
  simp [sliceLast]

theorem length_sliceLast_le (n : Nat) (l : List α) :
    (sliceLast n l).length ≤ n := by
  rw [length_sliceLast]; omega

theorem sliceLast_eq_reverse_take (n : Nat) (l : List α) :
    sliceLast n l = (l.reverse.take n).reverse := by
  have h1 : (List.take n l.reverse).reverse
      = List.drop (l.reverse.length - n) l.reverse.reverse := List.reverse_take
  rw [h1, List.reverse_reverse, List.length_reverse, sliceLast]

theorem sliceLast_sublist (n : Nat) (l : List α) :
    (sliceLast n l).Sublist l := List.drop_sublist _ _

theorem sliceLast_append_sliceLast (n : Nat) (A B : List α) :
    sliceLast n (sliceLast n A ++ B) = sliceLast n (A ++ B) := by
  rw [sliceLast_eq_reverse_take n (sliceLast n A ++ B),
      sliceLast_eq_reverse_take n (A ++ B)]
  congr 1
  rw [List.reverse_append, List.reverse_append,
      sliceLast_eq_reverse_take n A, List.reverse_reverse]
  rw [List.take_append_eq_append_take, List.take_append_eq_append_take,
      List.take_take]
  congr 1
  rw [inf_eq_left.mpr (Nat.sub_le n B.reverse.length)]

theorem mem_sliceLast_append_singleton {n : Nat} (hn : 1 ≤ n)
    (l : List α) (x : α) : x ∈ sliceLast n (l ++ [x]) := by
  have hlen : (l ++ [x]).length - n ≤ l.length := by simp; omega
  rw [sliceLast, List.drop_append_of_le_length hlen]
  exact List.mem_append_right _ (List.mem_singleton.mpr rfl)

theorem sliceLast_eq_tail {n : Nat} {l : List α} (h : l.length = n + 1) :
    sliceLast n l = l.tail := by
  rw [sliceLast, h]
  simp [List.drop_one]

/-! ### Helper lemmas about findIndex -/

theorem findIndex_eq_none_iff {p : ChatMessage → Bool} {l : List ChatMessage} :
    findIndex p l = none ↔ ∀ m ∈ l, p m = false := by
  induction l with
  | nil => simp [findIndex]
  | cons a rest ih =>
      by_cases h : p a = true
      · simp [findIndex, h]
      · have h' : p a = false := by revert h; cases p a <;> simp
        simp [findIndex, h', ih]

theorem findIndex_lt_length {p : ChatMessage → Bool} {l : List ChatMessage}
    {i : Nat} (h : findIndex p l = some i) : i < l.length := by
  induction l generalizing i with
  | nil => simp [findIndex] at h
  | cons a rest ih =>
      by_cases ha : p a = true
      · simp [findIndex, ha] at h
        simp [List.length_cons]
        omega
      · have h' : p a = false := by revert ha; cases p a <;> simp
        simp [findIndex, h'] at h
        obtain ⟨j, hj, hji⟩ := h
        have := ih hj
        simp [List.length_cons]
        omega

theorem findIndex_append_singleton {p : ChatMessage → Bool}
    {l : List ChatMessage} {x : ChatMessage}
    (h : ∀ m ∈ l, p m = false) (hx : p x = true) :
    findIndex p (l ++ [x]) = some l.length := by
  induction l with
  | nil => simp [findIndex, hx]
  | cons a rest ih =>
      have ha : p a = false := h a (List.mem_cons_self a rest)
      have hrest : ∀ m ∈ rest, p m = false := fun m hm => h m (List.mem_cons_of_mem a hm)
      simp [findIndex, ha, ih hrest]

/-! ### Helper lemmas about the reconciler's branches -/

/-- Absence of a clientId match makes the first branch's scrutinee `none`:
either the incoming clientId is falsy, or no existing entry carries it. -/
theorem clientId_guard_none {msg : ChatMessage} {l : List ChatMessage}
    (h : strTruthy msg.clientId = false ∨ ∀ m ∈ l, m.clientId ≠ msg.clientId) :
    (if strTruthy msg.clientId then
        findIndex (fun m => m.clientId = msg.clientId) l
      else none) = none := by
  rcases h with h | h
  · simp [h]
  · cases hst : strTruthy msg.clientId
    · simp
    · simp only [if_pos rfl]
      exact findIndex_eq_none_iff.mpr fun m hm => by simp [h m hm]

/-- With no clientId match, the second branch's guard is false when the
incoming server id is falsy or unmatched. -/
theorem id_guard_false {msg : ChatMessage} {l : List ChatMessage}
    (h : strTruthy msg.id = false ∨ ∀ m ∈ l, m.id ≠ msg.id) :
    (strTruthy msg.id && l.any (fun m => m.id = msg.id)) = false := by
  rcases h with h | h
  · simp [h]
  · have : l.any (fun m => m.id = msg.id) = false :=
      List.any_eq_false.mpr fun m hm => by simp [h m hm]
    simp [this]

/-- Branch 1 of the reconciler: a truthy clientId found at index `i`
replaces in place (all fields overwritten, flag cleared) and trims. -/
theorem upsert_clientId_found {pd : String → Option Int} {msg : ChatMessage}
    {l : List ChatMessage} {i : Nat}
    (hct : strTruthy msg.clientId = true)
    (hfind : findIndex (fun m => m.clientId = msg.clientId) l = some i) :
    upsertRoomMessage pd l msg
      = sliceLast MESSAGE_LIMIT (l.set i { msg with «local» := some false }) := by
  unfold upsertRoomMessage
  simp [hct, hfind]

/-- Branch 2 of the reconciler: no clientId match but a truthy server id
already present — the incoming message is discarded, the list unchanged. -/
theorem upsert_id_discard {pd : String → Option Int} {msg : ChatMessage}
    {l : List ChatMessage}
    (hcid : strTruthy msg.clientId = false ∨ ∀ m ∈ l, m.clientId ≠ msg.clientId)
    (hid : strTruthy msg.id = true)
    (hmem : ∃ m ∈ l, m.id = msg.id) :
    upsertRoomMessage pd l msg = l := by
  unfold upsertRoomMessage
  rw [clientId_guard_none hcid]
  have hany : l.any (fun m => m.id = msg.id) = true := by
    obtain ⟨m, hm, he⟩ := hmem
    exact List.any_eq_true.mpr ⟨m, hm, by simp [he]⟩
  simp [hid, hany]

/-- Branch 3 of the reconciler: no id matches but some existing entry is a
fuzzy duplicate — the incoming message is discarded, the list unchanged. -/
theorem upsert_fuzzy_discard {pd : String → Option Int} {msg : ChatMessage}
    {l : List ChatMessage}
    (hcid : strTruthy msg.clientId = false ∨ ∀ m ∈ l, m.clientId ≠ msg.clientId)
    (hid : strTruthy msg.id = false ∨ ∀ m ∈ l, m.id ≠ msg.id)
    (hfz : ∃ m ∈ l, fuzzyDup pd m msg = true) :
    upsertRoomMessage pd l msg = l := by
  unfold upsertRoomMessage
  rw [clientId_guard_none hcid]
  have hany : l.any (fun m => fuzzyDup pd m msg) = true := List.any_eq_true.mpr hfz
  simp [id_guard_false hid, hany]

/-- Branch 4 of the reconciler: no id match and no fuzzy duplicate — the
incoming message is appended and the list trimmed. -/
theorem upsert_append {pd : String → Option Int} {msg : ChatMessage}
    {l : List ChatMessage}
    (hcid : strTruthy msg.clientId = false ∨ ∀ m ∈ l, m.clientId ≠ msg.clientId)
    (hid : strTruthy msg.id = false ∨ ∀ m ∈ l, m.id ≠ msg.id)
    (hfz : ∀ m ∈ l, fuzzyDup pd m msg = false) :
    upsertRoomMessage pd l msg = sliceLast MESSAGE_LIMIT (l ++ [msg]) := by
  unfold upsertRoomMessage
  rw [clientId_guard_none hcid]
  have hany : l.any (fun m => fuzzyDup pd m msg) = false :=
    List.any_eq_false.mpr fun m hm => by simp [hfz m hm]
  simp [id_guard_false hid, hany]

/-- Pairwise distinctness of a stream of incoming messages as the
reconciler sees it: a later message never carries a truthy clientId or
server id already carried by an earlier one, and never fuzzy-matches an
earlier one. -/
def NoCollision (pd : String → Option Int) (a b : ChatMessage) : Prop :=
  (strTruthy b.clientId = true → a.clientId ≠ b.clientId) ∧
  (strTruthy b.id = true → a.id ≠ b.id) ∧
  fuzzyDup pd a b = false

instance (pd : String → Option Int) (a b : ChatMessage) :
    Decidable (NoCollision pd a b) := by
  unfold NoCollision
  exact inferInstance

/-- Folding the reconciler over a stream of pairwise non-colliding
messages starting from a trimmed accumulator appends every message and
keeps only the last MESSAGE_LIMIT of the whole stream. -/
theorem foldl_upsert_eq_sliceLast (pd : String → Option Int) :
    ∀ (msgs acc : List ChatMessage), acc.length ≤ MESSAGE_LIMIT →
    List.Pairwise (NoCollision pd) (acc ++ msgs) →
    msgs.foldl (upsertRoomMessage pd) acc = sliceLast MESSAGE_LIMIT (acc ++ msgs) := by
  intro msgs
  induction msgs with
  | nil =>
      intro acc hlen _
      simp [sliceLast_of_le hlen]
  | cons m rest ih =>
      intro acc hlen hpair
      have hNC : ∀ a ∈ acc, NoCollision pd a m := by
        intro a ha
        exact (List.pairwise_append.mp hpair).2.2 a ha m (List.mem_cons_self m rest)
      have hcid : strTruthy m.clientId = false ∨ ∀ a ∈ acc, a.clientId ≠ m.clientId := by
        cases hst : strTruthy m.clientId
        · exact Or.inl rfl
        · exact Or.inr fun a ha => (hNC a ha).1 hst
      have hid : strTruthy m.id = false ∨ ∀ a ∈ acc, a.id ≠ m.id := by
        cases hst : strTruthy m.id
        · exact Or.inl rfl
        · exact Or.inr fun a ha => (hNC a ha).2.1 hst
      have hfz : ∀ a ∈ acc, fuzzyDup pd a m = false := fun a ha => (hNC a ha).2.2
      have hstep : upsertRoomMessage pd acc m = sliceLast MESSAGE_LIMIT (acc ++ [m]) :=
        upsert_append hcid hid hfz
      have hsub : (sliceLast MESSAGE_LIMIT (acc ++ [m]) ++ rest).Sublist (acc ++ (m :: rest)) := by
        have h1 : (sliceLast MESSAGE_LIMIT (acc ++ [m])).Sublist (acc ++ [m]) :=
          sliceLast_sublist _ _
        have h2 := List.Sublist.append h1 (List.Sublist.refl rest)
        simpa using h2
      have hpair' : List.Pairwise (NoCollision pd)
          (sliceLast MESSAGE_LIMIT (acc ++ [m]) ++ rest) :=
        List.Pairwise.sublist hsub hpair
      have hlen' : (sliceLast MESSAGE_LIMIT (acc ++ [m])).length ≤ MESSAGE_LIMIT :=
        length_sliceLast_le _ _
      calc (m :: rest).foldl (upsertRoomMessage pd) acc
          = rest.foldl (upsertRoomMessage pd) (sliceLast MESSAGE_LIMIT (acc ++ [m])) := by
            simp [List.foldl_cons, hstep]
        _ = sliceLast MESSAGE_LIMIT (sliceLast MESSAGE_LIMIT (acc ++ [m]) ++ rest) :=
            ih _ hlen' hpair'
        _ = sliceLast MESSAGE_LIMIT ((acc ++ [m]) ++ rest) :=
            sliceLast_append_sliceLast _ _ _
        _ = sliceLast MESSAGE_LIMIT (acc ++ (m :: rest)) := by
            simp

/-! ### Concrete inputs used by witnesses and counterexamples -/

/-- A Date string parser that accepts nothing (every string is an invalid
date); used to instantiate the external-parser parameter in witnesses. -/
def noParse : String → Option Int := fun _ => none

/-- A JSON.parse model for the C1 scenario: the well-formed entry "[]"
parses to the empty array, the corrupt entry "xyz" (and anything else) is
invalid and throws. -/
def jsonParseDemo : String → Option Json :=
  fun s => if s = "[]" then some (Json.arr []) else none

/-- A concrete posted message targeting room "General". -/
def c5Body : PostBody :=
  { clientId := some "c1", userId := some "u1", username := "alice",
    message := "hi", timestamp := some (TSVal.str "2026-01-01T00:00:00.000Z"),
    «local» := some true, room := "General" }

/-- A concrete posted message targeting room "Tech". -/
def c6Body : PostBody :=
  { clientId := some "c2", userId := some "u2", username := "bob",
    message := "hello", timestamp := some (TSVal.num 1700000000000),
    «local» := some true, room := "Tech" }

/-! ### Claim theorems -/

/-- C1 (counterexample): with the persisted entry for a room holding the
syntactically invalid JSON text "xyz", loadRoomCache propagates the parse
error instead of returning an empty message list — refuting the claim
that it never throws to the caller. -/
theorem C1_invalid_json_not_empty :
    loadRoomCache jsonParseDemo (some "xyz")
      = Except.error "SyntaxError: Unexpected token in JSON"
    ∧ loadRoomCache jsonParseDemo (some "xyz") ≠ Except.ok (Json.arr []) := by
  refine ⟨rfl, ?_⟩
  intro h
  simp [loadRoomCache, jsonParseDemo] at h

/-- C1 (amended): loadRoomCache returns the empty list when the storage
entry is absent (getItem returned null); when the entry is a nonempty
string that fails to parse as JSON, the body has no try/catch, so the
JSON.parse error propagates to the caller instead of an empty list being
returned. -/
theorem C1_load_absent_empty_invalid_throws :
    ∀ (parse : String → Option Json) (s : String),
      loadRoomCache parse none = Except.ok (Json.arr []) ∧
      (s ≠ "" → parse s = none →
        loadRoomCache parse (some s)
          = Except.error "SyntaxError: Unexpected token in JSON") := by
  intro parse s
  refine ⟨rfl, fun hs hp => ?_⟩
  simp [loadRoomCache, hs, hp]

/-- C1 witness: the amended theorem applied to the concrete parser and the
concrete corrupt entry "xyz". -/
theorem C1_witness :
    ("xyz" ≠ "") ∧ jsonParseDemo "xyz" = none ∧
    loadRoomCache jsonParseDemo (some "xyz")
      = Except.error "SyntaxError: Unexpected token in JSON" :=
  ⟨by decide, rfl,
    (C1_load_absent_empty_invalid_throws jsonParseDemo "xyz").2 (by decide) rfl⟩

/-- C5 (code evaluated at the failing input): the POST handler republishes
the message for room "General" on the fixed channel "chat-channel", while
the realtime subscriber for room "General" listens on "chat-General"; the
two channel names differ, so room subscribers, the sender included, never
receive the republished message. -/
theorem C5_relay_channel_mismatch :
    (POST c5Body).1.channel = "chat-channel" ∧
    (POST c5Body).1.event = "new-message" ∧
    subscribeChannel c5Body.room = "chat-General" ∧
    (POST c5Body).1.channel ≠ subscribeChannel c5Body.room := by
  refine ⟨rfl, rfl, rfl, ?_⟩
  decide

/-- C6 (counterexample): the JSON response of a successful POST has the
single key "success" and contains none of the fields id, clientId,
username, message, timestamp the claim says it echoes. -/
theorem C6_response_missing_fields :
    ((POST c6Body).2).keys = ["success"] ∧
    "id" ∉ ((POST c6Body).2).keys ∧
    "clientId" ∉ ((POST c6Body).2).keys ∧
    "username" ∉ ((POST c6Body).2).keys ∧
    "message" ∉ ((POST c6Body).2).keys ∧
    "timestamp" ∉ ((POST c6Body).2).keys := by
  exact ⟨rfl, by decide, by decide, by decide, by decide, by decide⟩

/-- C6 (amended): the JSON response body of every successful POST is the
object with the single field success set to true; it echoes none of the
posted message's fields. -/
theorem C6_response_success_only :
    ∀ body : PostBody,
      (POST body).2 = Json.obj [("success", Json.bool true)] ∧
      ((POST body).2).keys = ["success"] :=
  fun _ => ⟨rfl, rfl⟩

/-- C7: an incoming message whose clientId matches no existing entry but
whose truthy server id equals the server id of some existing entry is
discarded: the reconciler returns the input list unchanged. -/
theorem C7_id_match_discards :
    ∀ (pd : String → Option Int) (L : List ChatMessage) (msg : ChatMessage)
      (i : String),
      msg.id = some i → i ≠ "" →
      (∃ m ∈ L, m.id = some i) →
      (strTruthy msg.clientId = false ∨ ∀ m ∈ L, m.clientId ≠ msg.clientId) →
      upsertRoomMessage pd L msg = L := by
  intro pd L msg i hid hne hmem hcid
  have hidT : strTruthy msg.id = true := by
    rw [hid]; simp [strTruthy, hne]
  refine upsert_id_discard hcid hidT ?_
  obtain ⟨m, hm, he⟩ := hmem
  exact ⟨m, hm, by rw [he, hid]⟩

/-- C7 witness: a concrete list already holding server id "s1" and an
incoming message with the same server id and a fresh clientId. -/
theorem C7_witness :
    upsertRoomMessage noParse
      [{ id := some "s1", username := "alice", message := "hi" }]
      { id := some "s1", clientId := some "c9", username := "alice",
        message := "hi" }
      = [{ id := some "s1", username := "alice", message := "hi" }] := by
  refine C7_id_match_discards noParse _ _ "s1" rfl (by decide) ?_ ?_
  · exact ⟨_, List.mem_singleton.mpr rfl, rfl⟩
  · exact Or.inr (by decide)

/-- C8: when the send request fails on the network or returns a non-ok
status, the send pipeline performs no further cache mutation: the room
list stays exactly the optimistic insert, the optimistic entry is still in
the list, and its unconfirmed flag is still true. -/
theorem C8_failed_send_keeps_optimistic :
    ∀ (prev : List ChatMessage) (input clientId userId username : String)
      (nowIso : TSVal) (outcome : FetchOutcome),
      jsTrim input ≠ "" →
      (outcome = FetchOutcome.netError ∨
        ∃ body, outcome = FetchOutcome.httpResponse false body) →
      sendMessage prev input clientId userId username nowIso outcome
        = optimisticInsert prev (optimisticMsg input clientId userId username nowIso) ∧
      optimisticMsg input clientId userId username nowIso
        ∈ sendMessage prev input clientId userId username nowIso outcome ∧
      (optimisticMsg input clientId userId username nowIso).«local» = some true := by
  intro prev input clientId userId username nowIso outcome hin hout
  have hmem : optimisticMsg input clientId userId username nowIso
      ∈ optimisticInsert prev (optimisticMsg input clientId userId username nowIso) :=
    mem_sliceLast_append_singleton (by decide) prev _
  rcases hout with h | ⟨body, h⟩ <;> subst h
  · exact ⟨by simp [sendMessage, hin]; rfl, by simpa [sendMessage, hin] using hmem, rfl⟩
  · exact ⟨by simp [sendMessage, hin]; rfl, by simpa [sendMessage, hin] using hmem, rfl⟩

/-- C8 witness: a concrete failed send over an empty room list. -/
theorem C8_witness :
    (jsTrim "hi" ≠ "") ∧
    sendMessage [] "hi" "c1" "u1" "alice" (TSVal.num 1000) FetchOutcome.netError
      = optimisticInsert [] (optimisticMsg "hi" "c1" "u1" "alice" (TSVal.num 1000)) ∧
    optimisticMsg "hi" "c1" "u1" "alice" (TSVal.num 1000)
      ∈ sendMessage [] "hi" "c1" "u1" "alice" (TSVal.num 1000) FetchOutcome.netError ∧
    (optimisticMsg "hi" "c1" "u1" "alice" (TSVal.num 1000)).«local» = some true :=
  ⟨by decide,
    C8_failed_send_keeps_optimistic [] "hi" "c1" "u1" "alice" (TSVal.num 1000)
      FetchOutcome.netError (by decide) (Or.inl rfl)⟩

/-- C9: every push event produces a notification; each display field falls
back to its fixed default when the corresponding payload field is absent,
and a payload that fails to parse as JSON still yields the all-default
notification rather than none. -/
theorem C9_push_notification_defaults :
    (∀ pl : PushPayload,
      (pl.notification.bind (·.title) = none →
        (pushHandler (some pl)).title = "New Notification") ∧
      (pl.notification.bind (·.body) = none →
        (pushHandler (some pl)).body = "") ∧
      (pl.notification.bind (·.icon) = none →
        (pushHandler (some pl)).icon = "/icon.png") ∧
      (pl.notification.bind (·.url) = none →
        (pushHandler (some pl)).url = "/")) ∧
    pushHandler none
      = { title := "New Notification", body := "", icon := "/icon.png", url := "/" } := by
  refine ⟨fun pl => ⟨fun h => ?_, fun h => ?_, fun h => ?_, fun h => ?_⟩, rfl⟩ <;>
    simp [pushHandler, orDefault, h]

/-- C9 witness: the empty payload object (no notification field) and the
unparseable payload both yield the all-default notification. -/
theorem C9_witness :
    (pushHandler (some { notification := none })).title = "New Notification" ∧
    (pushHandler (some { notification := none })).body = "" ∧
    (pushHandler (some { notification := none })).icon = "/icon.png" ∧
    (pushHandler (some { notification := none })).url = "/" ∧
    pushHandler none
      = { title := "New Notification", body := "", icon := "/icon.png", url := "/" } :=
  ⟨(C9_push_notification_defaults.1 _).1 rfl,
   (C9_push_notification_defaults.1 _).2.1 rfl,
   (C9_push_notification_defaults.1 _).2.2.1 rfl,
   (C9_push_notification_defaults.1 _).2.2.2 rfl,
   C9_push_notification_defaults.2⟩

/-- C10: with no clientId or server-id match, an incoming message whose
timestamp — or the timestamp of every same-sender same-body candidate —
is missing or unparseable is never caught by the fuzzy-duplicate check:
it is appended as a new entry (and the list trimmed). -/
theorem C10_nan_timestamp_appends :
    ∀ (pd : String → Option Int) (L : List ChatMessage) (msg : ChatMessage),
      (strTruthy msg.clientId = false ∨ ∀ m ∈ L, m.clientId ≠ msg.clientId) →
      (strTruthy msg.id = false ∨ ∀ m ∈ L, m.id ≠ msg.id) →
      (∀ m ∈ L, m.username = msg.username → m.message = msg.message →
        tsGetTime pd m.timestamp = none ∨ tsGetTime pd msg.timestamp = none) →
      upsertRoomMessage pd L msg = sliceLast MESSAGE_LIMIT (L ++ [msg]) := by
  intro pd L msg hcid hid hts
  refine upsert_append hcid hid ?_
  intro m hm
  by_cases hu : m.username = msg.username
  · by_cases hb : m.message = msg.message
    · rcases hts m hm hu hb with h | h
      · cases h2 : tsGetTime pd msg.timestamp <;> simp [fuzzyDup, hu, hb, h, h2]
      · cases h1 : tsGetTime pd m.timestamp <;> simp [fuzzyDup, hu, hb, h, h1]
    · simp [fuzzyDup, hb]
  · simp [fuzzyDup, hu]

/-- C10 witness: an existing entry with identical sender and body but an
unparseable timestamp string; the incoming message is appended, not
deduplicated. -/
theorem C10_witness :
    upsertRoomMessage noParse
      [{ username := "alice", message := "hi",
         timestamp := some (TSVal.num 1000) }]
      { username := "alice", message := "hi",
        timestamp := some (TSVal.str "not-a-date") }
      = [{ username := "alice", message := "hi",
           timestamp := some (TSVal.num 1000) },
         { username := "alice", message := "hi",
           timestamp := some (TSVal.str "not-a-date") }] := by
  have h := C10_nan_timestamp_appends noParse
    [{ username := "alice", message := "hi",
       timestamp := some (TSVal.num 1000) }]
    { username := "alice", message := "hi",
      timestamp := some (TSVal.str "not-a-date") }
    (Or.inl rfl) (Or.inl rfl)
    (fun _ _ _ _ => Or.inr rfl)
  rw [h]
  decide

/-- C2: an incoming message whose truthy clientId matches an existing
entry replaces that entry in place — the list keeps its length, the entry
keeps its position, every incoming field is copied over and the
local/unconfirmed flag is set to false — and, in particular, an optimistic
insert followed by a server echo carrying the same clientId leaves exactly
one entry for that clientId, with its flag false. -/
theorem C2_clientId_replaces_in_place :
    (∀ (pd : String → Option Int) (L : List ChatMessage) (msg : ChatMessage)
        (c : String) (i : Nat),
      msg.clientId = some c → c ≠ "" →
      findIndex (fun m => m.clientId = msg.clientId) L = some i →
      L.length ≤ MESSAGE_LIMIT →
      upsertRoomMessage pd L msg = L.set i { msg with «local» := some false } ∧
      (upsertRoomMessage pd L msg).length = L.length ∧
      (upsertRoomMessage pd L msg)[i]? = some { msg with «local» := some false } ∧
      ∀ j, j ≠ i → (upsertRoomMessage pd L msg)[j]? = L[j]?) ∧
    (∀ (pd : String → Option Int) (L : List ChatMessage) (opt echo : ChatMessage)
        (c : String),
      opt.clientId = some c → echo.clientId = some c → c ≠ "" →
      (∀ m ∈ L, m.clientId ≠ some c) →
      L.length + 1 ≤ MESSAGE_LIMIT →
      upsertRoomMessage pd (optimisticInsert L opt) echo
        = L ++ [{ echo with «local» := some false }] ∧
      (upsertRoomMessage pd (optimisticInsert L opt) echo).length = L.length + 1 ∧
      (upsertRoomMessage pd (optimisticInsert L opt) echo).countP
          (fun m => m.clientId = some c) = 1) := by
  constructor
  · intro pd L msg c i hc hne hfind hlen
    have hct : strTruthy msg.clientId = true := by rw [hc]; simp [strTruthy, hne]
    have hlt : i < L.length := findIndex_lt_length hfind
    have h : upsertRoomMessage pd L msg = L.set i { msg with «local» := some false } := by
      rw [upsert_clientId_found hct hfind]
      exact sliceLast_of_le (by simpa using hlen)
    refine ⟨h, ?_, ?_, ?_⟩
    · rw [h]; exact List.length_set L i _
    · rw [h]; simp [List.getElem?_set, hlt]
    · intro j hj; rw [h]; simp [List.getElem?_set, Ne.symm hj]
  · intro pd L opt echo c hoc hec hne hnomatch hlen
    have hopt : optimisticInsert L opt = L ++ [opt] := by
      unfold optimisticInsert
      exact sliceLast_of_le (by simp; omega)
    have hct : strTruthy echo.clientId = true := by rw [hec]; simp [strTruthy, hne]
    have hfind : findIndex (fun m => m.clientId = echo.clientId) (L ++ [opt])
        = some L.length := by
      refine findIndex_append_singleton (fun m hm => ?_) (by simp [hec, hoc])
      simp [hec]
      exact hnomatch m hm
    have hset : (L ++ [opt]).set L.length { echo with «local» := some false }
        = L ++ [{ echo with «local» := some false }] := by
      rw [List.set_append]
      simp
    have h : upsertRoomMessage pd (optimisticInsert L opt) echo
        = L ++ [{ echo with «local» := some false }] := by
      rw [hopt, upsert_clientId_found hct hfind, hset]
      exact sliceLast_of_le (by simp; omega)
    refine ⟨h, ?_, ?_⟩
    · rw [h]; simp
    · rw [h]
      have hzero : L.countP (fun m => m.clientId = some c) = 0 :=
        List.countP_eq_zero.mpr fun m hm => by simp [hnomatch m hm]
      simp [List.countP_append, hzero, hec]

/-- C2 witness: the scenario of the spec — optimistic "hi" with clientId
"c1" into an empty room, then the server echo with the same clientId; one
entry remains and its flag is false. -/
theorem C2_witness :
    upsertRoomMessage noParse
      (optimisticInsert []
        { clientId := some "c1", userId := some "u1", username := "alice",
          message := "hi", timestamp := some (TSVal.num 1000),
          «local» := some true })
      { id := some "s1", clientId := some "c1", userId := some "u1",
        username := "alice", message := "hi",
        timestamp := some (TSVal.num 1005), «local» := some false }
      = [{ id := some "s1", clientId := some "c1", userId := some "u1",
           username := "alice", message := "hi",
           timestamp := some (TSVal.num 1005), «local» := some false }] ∧
    (upsertRoomMessage noParse
      (optimisticInsert []
        { clientId := some "c1", userId := some "u1", username := "alice",
          message := "hi", timestamp := some (TSVal.num 1000),
          «local» := some true })
      { id := some "s1", clientId := some "c1", userId := some "u1",
        username := "alice", message := "hi",
        timestamp := some (TSVal.num 1005), «local» := some false }).countP
      (fun m => m.clientId = some "c1") = 1 := by
  have h := C2_clientId_replaces_in_place.2 noParse []
    { clientId := some "c1", userId := some "u1", username := "alice",
      message := "hi", timestamp := some (TSVal.num 1000), «local» := some true }
    { id := some "s1", clientId := some "c1", userId := some "u1",
      username := "alice", message := "hi",
      timestamp := some (TSVal.num 1005), «local» := some false }
    "c1" rfl rfl (by decide) (fun m hm => absurd hm (List.not_mem_nil m))
    (by decide)
  exact ⟨h.1, h.2.2⟩

/-- C3: two messages with no matching identifiers, identical sender and
identical body are deduplicated by the fuzzy check exactly when their
parsed timestamps are strictly inside the 5000 ms window (in either
arrival order); at 5000 ms or more apart, both survive as distinct
entries. -/
theorem C3_fuzzy_window :
    ∀ (pd : String → Option Int) (L : List ChatMessage) (m1 m2 : ChatMessage)
      (t1 t2 : Int),
      (strTruthy m1.clientId = false ∨ ∀ m ∈ L ++ [m2], m.clientId ≠ m1.clientId) →
      (strTruthy m1.id = false ∨ ∀ m ∈ L ++ [m2], m.id ≠ m1.id) →
      (strTruthy m2.clientId = false ∨ ∀ m ∈ L ++ [m1], m.clientId ≠ m2.clientId) →
      (strTruthy m2.id = false ∨ ∀ m ∈ L ++ [m1], m.id ≠ m2.id) →
      (∀ m ∈ L, fuzzyDup pd m m1 = false) →
      (∀ m ∈ L, fuzzyDup pd m m2 = false) →
      m1.username = m2.username → m1.message = m2.message →
      tsGetTime pd m1.timestamp = some t1 → tsGetTime pd m2.timestamp = some t2 →
      L.length + 2 ≤ MESSAGE_LIMIT →
      ((t1 - t2).natAbs < DUPLICATE_WINDOW_MS →
        upsertRoomMessage pd (upsertRoomMessage pd L m1) m2 = L ++ [m1] ∧
        upsertRoomMessage pd (upsertRoomMessage pd L m2) m1 = L ++ [m2]) ∧
      (DUPLICATE_WINDOW_MS ≤ (t1 - t2).natAbs →
        upsertRoomMessage pd (upsertRoomMessage pd L m1) m2 = L ++ [m1, m2] ∧
        upsertRoomMessage pd (upsertRoomMessage pd L m2) m1 = L ++ [m2, m1]) := by
  intro pd L m1 m2 t1 t2 hc1 hi1 hc2 hi2 hf1 hf2 hu hb ht1 ht2 hlen
  have restrict : ∀ {x : ChatMessage} {P : ChatMessage → Prop} {b : Bool},
      (b = false ∨ ∀ m ∈ L ++ [x], P m) → (b = false ∨ ∀ m ∈ L, P m) :=
    fun h => h.imp id fun hh m hm => hh m (List.mem_append_left _ hm)
  have step1 : upsertRoomMessage pd L m1 = L ++ [m1] := by
    rw [upsert_append (restrict hc1) (restrict hi1) hf1]
    exact sliceLast_of_le (by simp [MESSAGE_LIMIT] at hlen ⊢; omega)
  have step2 : upsertRoomMessage pd L m2 = L ++ [m2] := by
    rw [upsert_append (restrict hc2) (restrict hi2) hf2]
    exact sliceLast_of_le (by simp [MESSAGE_LIMIT] at hlen ⊢; omega)
  constructor
  · intro hclose
    have hfz12 : fuzzyDup pd m1 m2 = true := by
      simp [fuzzyDup, hu, hb, ht1, ht2, hclose]
    have hfz21 : fuzzyDup pd m2 m1 = true := by
      have hswap : (t2 - t1).natAbs < DUPLICATE_WINDOW_MS := by omega
      simp [fuzzyDup, hu.symm, hb.symm, ht1, ht2, hswap]
    constructor
    · rw [step1]
      exact upsert_fuzzy_discard hc2 hi2
        ⟨m1, List.mem_append_right _ (List.mem_singleton.mpr rfl), hfz12⟩
    · rw [step2]
      exact upsert_fuzzy_discard hc1 hi1
        ⟨m2, List.mem_append_right _ (List.mem_singleton.mpr rfl), hfz21⟩
  · intro hfar
    have hfz12 : fuzzyDup pd m1 m2 = false := by
      have hswap : ¬(t1 - t2).natAbs < DUPLICATE_WINDOW_MS := by omega
      simp [fuzzyDup, ht1, ht2, hswap]
    have hfz21 : fuzzyDup pd m2 m1 = false := by
      have hswap : ¬(t2 - t1).natAbs < DUPLICATE_WINDOW_MS := by omega
      simp [fuzzyDup, ht1, ht2, hswap]
    have hall2 : ∀ m ∈ L ++ [m1], fuzzyDup pd m m2 = false := by
      intro m hm
      rcases List.mem_append.mp hm with hm | hm
      · exact hf2 m hm
      · rw [List.mem_singleton.mp hm]; exact hfz12
    have hall1 : ∀ m ∈ L ++ [m2], fuzzyDup pd m m1 = false := by
      intro m hm
      rcases List.mem_append.mp hm with hm | hm
      · exact hf1 m hm
      · rw [List.mem_singleton.mp hm]; exact hfz21
    constructor
    · rw [step1, upsert_append hc2 hi2 hall2,
        sliceLast_of_le (by simp [MESSAGE_LIMIT] at hlen ⊢; omega)]
      simp
    · rw [step2, upsert_append hc1 hi1 hall1,
        sliceLast_of_le (by simp [MESSAGE_LIMIT] at hlen ⊢; omega)]
      simp

/-- C3 witness: two identifier-less messages with identical sender and
body, 1000 ms apart — reconciling both into an empty room in either order
leaves exactly one. -/
theorem C3_witness :
    upsertRoomMessage noParse
      (upsertRoomMessage noParse []
        { username := "alice", message := "hi", timestamp := some (TSVal.num 1000) })
      { username := "alice", message := "hi", timestamp := some (TSVal.num 2000) }
      = [{ username := "alice", message := "hi", timestamp := some (TSVal.num 1000) }] ∧
    upsertRoomMessage noParse
      (upsertRoomMessage noParse []
        { username := "alice", message := "hi", timestamp := some (TSVal.num 2000) })
      { username := "alice", message := "hi", timestamp := some (TSVal.num 1000) }
      = [{ username := "alice", message := "hi", timestamp := some (TSVal.num 2000) }] :=
  (C3_fuzzy_window noParse []
    { username := "alice", message := "hi", timestamp := some (TSVal.num 1000) }
    { username := "alice", message := "hi", timestamp := some (TSVal.num 2000) }
    1000 2000
    (Or.inl rfl) (Or.inl rfl) (Or.inl rfl) (Or.inl rfl)
    (fun m hm => absurd hm (List.not_mem_nil m))
    (fun m hm => absurd hm (List.not_mem_nil m))
    rfl rfl rfl rfl (by decide)).1 (by decide)

/-- C4: every mutating branch of the reconciler and the optimistic insert
trim to the last MESSAGE_LIMIT entries, and folding a stream of pairwise
distinct messages into an empty room keeps exactly the last MESSAGE_LIMIT
of the stream in original relative order; in particular a stream of
MESSAGE_LIMIT + 1 messages yields the stream's tail, of length
MESSAGE_LIMIT. -/
theorem C4_capacity_bound :
    (∀ (pd : String → Option Int) (l : List ChatMessage) (msg : ChatMessage),
      upsertRoomMessage pd l msg = l ∨
        (upsertRoomMessage pd l msg).length ≤ MESSAGE_LIMIT) ∧
    (∀ (l : List ChatMessage) (m : ChatMessage),
      (optimisticInsert l m).length ≤ MESSAGE_LIMIT) ∧
    (∀ (pd : String → Option Int) (msgs : List ChatMessage),
      List.Pairwise (NoCollision pd) msgs →
      msgs.foldl (upsertRoomMessage pd) [] = sliceLast MESSAGE_LIMIT msgs ∧
      (msgs.length = MESSAGE_LIMIT + 1 →
        msgs.foldl (upsertRoomMessage pd) [] = msgs.tail ∧
        (msgs.foldl (upsertRoomMessage pd) []).length = MESSAGE_LIMIT)) := by
  refine ⟨?_, ?_, ?_⟩
  · intro pd l msg
    unfold upsertRoomMessage
    cases h : (if strTruthy msg.clientId then
        findIndex (fun m => m.clientId = msg.clientId) l else none) with
    | some i =>
        right
        simp only [h]
        exact length_sliceLast_le _ _
    | none =>
        simp only [h]
        cases hA : (strTruthy msg.id && l.any (fun m => m.id = msg.id)) with
        | true => left; simp [hA]
        | false =>
            cases hB : l.any (fun m => fuzzyDup pd m msg) with
            | true => left; simp [hA, hB]
            | false => right; simp [hA, hB]; exact length_sliceLast_le _ _
  · intro l m
    exact length_sliceLast_le _ _
  · intro pd msgs hpair
    have h := foldl_upsert_eq_sliceLast pd msgs [] (Nat.zero_le _) (by simpa using hpair)
    simp only [List.nil_append] at h
    refine ⟨h, fun hlen => ⟨?_, ?_⟩⟩
    · rw [h]; exact sliceLast_eq_tail hlen
    · rw [h, length_sliceLast, hlen]; omega

/-- A stream of MESSAGE_LIMIT + 1 incoming messages with no identifiers
and no parseable timestamps (so the reconciler appends each one). -/
def c4Msgs : List ChatMessage :=
  (List.range (MESSAGE_LIMIT + 1)).map fun _ => { username := "u", message := "m" }

/-- C4 witness: folding the concrete stream of MESSAGE_LIMIT + 1 messages
into an empty room leaves the stream's tail of length MESSAGE_LIMIT. -/
theorem C4_witness :
    List.Pairwise (NoCollision noParse) c4Msgs ∧
    c4Msgs.length = MESSAGE_LIMIT + 1 ∧
    c4Msgs.foldl (upsertRoomMessage noParse) [] = c4Msgs.tail ∧
    (c4Msgs.foldl (upsertRoomMessage noParse) []).length = MESSAGE_LIMIT := by
  have hp : List.Pairwise (NoCollision noParse) c4Msgs := by decide
  have hl : c4Msgs.length = MESSAGE_LIMIT + 1 := by decide
  have h := (C4_capacity_bound.2.2 noParse c4Msgs hp).2 hl
  exact ⟨hp, hl, h.1, h.2⟩

end Chat
